import Mathlib

/-!
Verification development for an OpenAI-compatible multi-backend AI gateway.

The definitions below are a shallow embedding of the Python sources:
`src/services/rate_limiter.py`, `src/services/backend_manager.py`,
`src/services/context_manager.py`, `src/services/metrics.py` and `main.py`.
Python `time.time()` values are modelled as rationals, JSON values by the
`Json` inductive (numbers as integers; none of the verified properties
depends on fractional JSON numbers), and Python code that can raise an
unhandled exception is modelled with `Option` (`none` = exception).
-/

/-- JSON-like values as produced by `request.json()` / `response.json()`. -/
inductive Json where
  | null : Json
  | bool : Bool → Json
  | num : Int → Json
  | str : String → Json
  | arr : List Json → Json
  | obj : List (String × Json) → Json

/-- Python truthiness (`if x:`) of a JSON-derived value. -/
def Json.truthy : Json → Bool
  | .null => false
  | .bool b => b
  | .num n => n != 0
  | .str s => s != ""
  | .arr l => !l.isEmpty
  | .obj l => !l.isEmpty

/-- Python `d.get(k, default)`: `none` models the `AttributeError` raised
when the receiver is not a dict. -/
def Json.getD (j : Json) (k : String) (d : Json) : Option Json :=
  match j with
  | .obj fields => some ((fields.lookup k).getD d)
  | _ => none

/-- Python `d[k]` on a dict: `none` models `KeyError` / non-dict receiver. -/
def Json.getKey (j : Json) (k : String) : Option Json :=
  match j with
  | .obj fields => fields.lookup k
  | _ => none

/-- Field lookup on an object-shaped JSON value (used to state properties
about produced responses). -/
def jget (j : Json) (k : String) : Option Json :=
  match j with
  | .obj fields => fields.lookup k
  | _ => none

/-! ## Rate limiter (`src/services/rate_limiter.py`) -/

/-- `RateLimitConfig` from `src/config.py`. -/
structure RateLimitConfig where
  enabled : Bool
  requests_per_minute : Nat
  burst_size : Nat

/-- The `while client_requests and client_requests[0] < window_start:
client_requests.popleft()` loop: drop entries older than the window from
the front of the queue, stopping at the first in-window entry. -/
def pruneFront (window_start : ℚ) : List ℚ → List ℚ
  | [] => []
  | t :: ts => if t < window_start then pruneFront window_start ts else t :: ts

/-- `RateLimiter.check_rate_limit`, acting on one client's timestamp queue.
Returns (admit?, new queue). `current_time` is the value of `time.time()`. -/
def check_rate_limit (cfg : RateLimitConfig) (current_time : ℚ) (q : List ℚ) :
    Bool × List ℚ :=
  if !cfg.enabled then (true, q)
  else
    let window_start := current_time - 60
    let client_requests := pruneFront window_start q
    if cfg.requests_per_minute ≤ client_requests.length then
      (false, client_requests)
    else
      let recent_requests := client_requests.countP (fun t => decide (current_time - 10 < t))
      if cfg.burst_size ≤ recent_requests then (false, client_requests)
      else (true, client_requests ++ [current_time])

/-- One admission check in a run: state is (queue, admitted call times). -/
def rl_step (cfg : RateLimitConfig) : List ℚ × List ℚ → ℚ → List ℚ × List ℚ
  | (q, admitted), t =>
    let r := check_rate_limit cfg t q
    (r.2, if r.1 then admitted ++ [t] else admitted)

/-- A sequence of admission checks for one client starting from a fresh queue;
returns the final queue and the list of admitted call times. -/
def rl_run (cfg : RateLimitConfig) (times : List ℚ) : List ℚ × List ℚ :=
  times.foldl (rl_step cfg) ([], [])

/-- Membership in the trailing 60-second window ending at `T`. -/
def inWin60 (T s : ℚ) : Bool := decide (T - 60 ≤ s) && decide (s ≤ T)

/-- Membership in the trailing 10-second window ending at `T`. -/
def inWin10 (T s : ℚ) : Bool := decide (T - 10 < s) && decide (s ≤ T)

lemma pruneFront_eq_filter (ws : ℚ) (q : List ℚ) (h : q.Pairwise (· ≤ ·)) :
    pruneFront ws q = q.filter (fun s => decide (ws ≤ s)) := by
  induction q with
  | nil => rfl
  | cons t ts ih =>
    rw [List.pairwise_cons] at h
    by_cases ht : t < ws
    · rw [pruneFront, if_pos ht, List.filter_cons, if_neg (by simpa using not_le.mpr ht)]
      exact ih h.2
    · rw [pruneFront, if_neg ht, List.filter_cons, if_pos (by simpa using not_lt.mp ht)]
      have hall : ∀ s ∈ ts, decide (ws ≤ s) = true := fun s hs => by
        simpa using le_trans (not_lt.mp ht) (h.1 s hs)
      rw [List.filter_eq_self.mpr hall]

lemma countP_congr_of_eq (l : List ℚ) (p q : ℚ → Bool) (h : ∀ a ∈ l, p a = q a) :
    l.countP p = l.countP q := by
  rw [List.countP_eq_length_filter, List.countP_eq_length_filter, List.filter_congr h]

/-- Behaviour of one admission check on a sorted queue: prune to the
60-second window, reject on either cap, otherwise append the current time. -/
lemma check_rate_limit_eq (cfg : RateLimitConfig) (hen : cfg.enabled = true)
    (now : ℚ) (q : List ℚ) (hq : q.Pairwise (· ≤ ·)) :
    check_rate_limit cfg now q =
      (let q1 := q.filter (fun s => decide (now - 60 ≤ s))
       if cfg.requests_per_minute ≤ q1.length then (false, q1)
       else if cfg.burst_size ≤ q1.countP (fun t => decide (now - 10 < t)) then (false, q1)
       else (true, q1 ++ [now])) := by
  unfold check_rate_limit
  simp only [hen, Bool.not_true, Bool.false_eq_true, if_false, pruneFront_eq_filter _ _ hq]

lemma rl_run_invariant (cfg : RateLimitConfig) (hen : cfg.enabled = true) :
    ∀ (times adm : List ℚ) (tl : ℚ),
      (∀ s ∈ adm, s ≤ tl) → adm.Pairwise (· ≤ ·) →
      (∀ t ∈ times, tl ≤ t) → times.Pairwise (· ≤ ·) →
      (∀ T : ℚ, adm.countP (inWin60 T) ≤ cfg.requests_per_minute ∧
                adm.countP (inWin10 T) ≤ cfg.burst_size) →
      ∀ T : ℚ,
        ((times.foldl (rl_step cfg) (adm.filter (fun s => decide (tl - 60 ≤ s)), adm)).2.countP
            (inWin60 T) ≤ cfg.requests_per_minute) ∧
        ((times.foldl (rl_step cfg) (adm.filter (fun s => decide (tl - 60 ≤ s)), adm)).2.countP
            (inWin10 T) ≤ cfg.burst_size) := by
  intro times
  induction times with
  | nil => intro adm tl _ _ _ _ hcount T; simpa using hcount T
  | cons t rest ih =>
    intro adm tl hadm_le hadm_sorted htimes_le htimes_sorted hcount
    have htl : tl ≤ t := htimes_le t (List.mem_cons_self t rest)
    have hrest_le : ∀ x ∈ rest, t ≤ x := (List.pairwise_cons.mp htimes_sorted).1
    have hrest_sorted : rest.Pairwise (· ≤ ·) := (List.pairwise_cons.mp htimes_sorted).2
    have hqsorted : (adm.filter (fun s => decide (tl - 60 ≤ s))).Pairwise (· ≤ ·) :=
      hadm_sorted.filter _
    have hq1 : (adm.filter (fun s => decide (tl - 60 ≤ s))).filter
        (fun s => decide (t - 60 ≤ s)) = adm.filter (fun s => decide (t - 60 ≤ s)) := by
      rw [List.filter_filter]
      refine List.filter_congr ?_
      intro a _
      by_cases hta : t - 60 ≤ a
      · have h2 : tl - 60 ≤ a := le_trans (by linarith) hta
        simp [hta, h2]
      · simp [hta]
    have hstep := check_rate_limit_eq cfg hen t _ hqsorted
    rw [hq1] at hstep
    have hlen : (adm.filter (fun s => decide (t - 60 ≤ s))).length
        = adm.countP (fun s => decide (t - 60 ≤ s)) :=
      (List.countP_eq_length_filter _ _).symm
    have hrecent : (adm.filter (fun s => decide (t - 60 ≤ s))).countP
        (fun s => decide (t - 10 < s)) = adm.countP (fun s => decide (t - 10 < s)) := by
      rw [List.countP_filter]
      refine countP_congr_of_eq _ _ _ ?_
      intro a _
      by_cases h10 : t - 10 < a
      · have h60 : t - 60 ≤ a := by linarith
        simp [h10, h60]
      · simp [h10]
    by_cases hx1 : cfg.requests_per_minute ≤ (adm.filter (fun s => decide (t - 60 ≤ s))).length
    · have hres : rl_step cfg (adm.filter (fun s => decide (tl - 60 ≤ s)), adm) t
          = (adm.filter (fun s => decide (t - 60 ≤ s)), adm) := by
        simp only [rl_step, hstep]
        rw [if_pos hx1]
        simp
      rw [List.foldl_cons, hres]
      exact ih adm t (fun s hs => le_trans (hadm_le s hs) htl) hadm_sorted hrest_le
        hrest_sorted hcount
    · by_cases hx2 : cfg.burst_size ≤ (adm.filter (fun s => decide (t - 60 ≤ s))).countP
          (fun s => decide (t - 10 < s))
      · have hres : rl_step cfg (adm.filter (fun s => decide (tl - 60 ≤ s)), adm) t
            = (adm.filter (fun s => decide (t - 60 ≤ s)), adm) := by
          simp only [rl_step, hstep]
          rw [if_neg hx1, if_pos hx2]
          simp
        rw [List.foldl_cons, hres]
        exact ih adm t (fun s hs => le_trans (hadm_le s hs) htl) hadm_sorted hrest_le
          hrest_sorted hcount
      · have htt : decide (t - 60 ≤ t) = true := by
          simp only [decide_eq_true_eq]; linarith
        have hres : rl_step cfg (adm.filter (fun s => decide (tl - 60 ≤ s)), adm) t
            = ((adm ++ [t]).filter (fun s => decide (t - 60 ≤ s)), adm ++ [t]) := by
          simp only [rl_step, hstep]
          rw [if_neg hx1, if_neg hx2]
          simp [List.filter_append, htt]
        rw [List.foldl_cons, hres]
        have hadm_le' : ∀ s ∈ adm ++ [t], s ≤ t := by
          intro s hs
          rcases List.mem_append.mp hs with h | h
          · exact le_trans (hadm_le s h) htl
          · simp only [List.mem_singleton] at h
            simp [h]
        have hadm_sorted' : (adm ++ [t]).Pairwise (· ≤ ·) := by
          rw [List.pairwise_append]
          refine ⟨hadm_sorted, List.pairwise_singleton _ _, ?_⟩
          intro a ha b hb
          simp only [List.mem_singleton] at hb
          subst hb
          exact le_trans (hadm_le a ha) htl
        have hcount' : ∀ T' : ℚ, (adm ++ [t]).countP (inWin60 T') ≤ cfg.requests_per_minute ∧
            (adm ++ [t]).countP (inWin10 T') ≤ cfg.burst_size := by
          intro T'
          rw [List.countP_append, List.countP_append]
          have hsing60 : List.countP (inWin60 T') [t] = if inWin60 T' t then 1 else 0 := by
            simp [List.countP_cons]
          have hsing10 : List.countP (inWin10 T') [t] = if inWin10 T' t then 1 else 0 := by
            simp [List.countP_cons]
          constructor
          · rw [hsing60]
            by_cases hin : inWin60 T' t = true
            · have hwin := hin
              simp only [inWin60, Bool.and_eq_true, decide_eq_true_eq] at hwin
              have hmono : adm.countP (inWin60 T') ≤ adm.countP (fun s => decide (t - 60 ≤ s)) := by
                refine List.countP_mono_left ?_
                intro s _ hs
                simp only [inWin60, Bool.and_eq_true, decide_eq_true_eq] at hs
                simp only [decide_eq_true_eq]
                linarith [hwin.2, hs.1]
              have hlt : adm.countP (fun s => decide (t - 60 ≤ s)) < cfg.requests_per_minute := by
                rw [← hlen]; exact Nat.lt_of_not_le hx1
              rw [if_pos hin]
              omega
            · rw [if_neg hin]
              simpa using (hcount T').1
          · rw [hsing10]
            by_cases hin : inWin10 T' t = true
            · have hwin := hin
              simp only [inWin10, Bool.and_eq_true, decide_eq_true_eq] at hwin
              have hmono : adm.countP (inWin10 T') ≤ adm.countP (fun s => decide (t - 10 < s)) := by
                refine List.countP_mono_left ?_
                intro s _ hs
                simp only [inWin10, Bool.and_eq_true, decide_eq_true_eq] at hs
                simp only [decide_eq_true_eq]
                linarith [hwin.2, hs.1]
              have hlt : adm.countP (fun s => decide (t - 10 < s)) < cfg.burst_size := by
                rw [← hrecent]; exact Nat.lt_of_not_le hx2
              rw [if_pos hin]
              omega
            · rw [if_neg hin]
              simpa using (hcount T').2
        exact ih (adm ++ [t]) t hadm_le' hadm_sorted' hrest_le hrest_sorted hcount'

/-- C1: with rate limiting enabled, over any nondecreasing sequence of
admission-check times for one client, no more than `requests_per_minute`
calls are admitted within any trailing 60-second window and no more than
`burst_size` within any trailing 10-second window; moreover each call drops
timestamps older than 60 seconds from the front of the queue, rejects if the
remaining count is at least `requests_per_minute` or the trailing-10-second
count is at least `burst_size`, and otherwise records the current timestamp
and admits. -/
theorem rate_limiter_window_caps (cfg : RateLimitConfig) (hen : cfg.enabled = true)
    (times : List ℚ) (hmono : times.Pairwise (· ≤ ·)) :
    (∀ T : ℚ,
      (rl_run cfg times).2.countP (inWin60 T) ≤ cfg.requests_per_minute ∧
      (rl_run cfg times).2.countP (inWin10 T) ≤ cfg.burst_size) ∧
    (∀ (now : ℚ) (q : List ℚ), q.Pairwise (· ≤ ·) →
      check_rate_limit cfg now q =
        (let q1 := q.filter (fun s => decide (now - 60 ≤ s))
         if cfg.requests_per_minute ≤ q1.length then (false, q1)
         else if cfg.burst_size ≤ q1.countP (fun t => decide (now - 10 < t)) then (false, q1)
         else (true, q1 ++ [now]))) := by
  constructor
  · intro T
    cases times with
    | nil => simp [rl_run]
    | cons t rest =>
      have hle : ∀ x ∈ t :: rest, t ≤ x := by
        intro x hx
        rcases List.mem_cons.mp hx with h | h
        · exact le_of_eq h.symm
        · exact (List.pairwise_cons.mp hmono).1 x h
      have h := rl_run_invariant cfg hen (t :: rest) [] t (by simp) List.Pairwise.nil
        hle hmono (by simp) T
      simpa [rl_run] using h
  · intro now q hq
    exact check_rate_limit_eq cfg hen now q hq

/-- Witness for C1 at a concrete configuration and call sequence. -/
theorem rate_limiter_window_caps_witness :
    (RateLimitConfig.mk true 2 2).enabled = true ∧
    ([0, 30, 45] : List ℚ).Pairwise (· ≤ ·) ∧
    ((rl_run ⟨true, 2, 2⟩ [0, 30, 45]).2.countP (inWin60 50) ≤ 2 ∧
     (rl_run ⟨true, 2, 2⟩ [0, 30, 45]).2.countP (inWin10 50) ≤ 2) :=
  ⟨rfl, by decide, (rate_limiter_window_caps ⟨true, 2, 2⟩ rfl [0, 30, 45] (by decide)).1 50⟩

/-- C10: a rejected admission check never records the current timestamp:
the queue left behind by a call of `check_rate_limit` that returns `false`
is exactly the old queue minus the entries older than the 60-second window. -/
theorem rate_limiter_reject_no_record (cfg : RateLimitConfig) (now : ℚ)
    (q : List ℚ) (hq : q.Pairwise (· ≤ ·))
    (hrej : (check_rate_limit cfg now q).1 = false) :
    (check_rate_limit cfg now q).2 = q.filter (fun s => decide (now - 60 ≤ s)) := by
  cases hen : cfg.enabled with
  | false =>
    exfalso
    unfold check_rate_limit at hrej
    rw [hen] at hrej
    simp at hrej
  | true =>
    rw [check_rate_limit_eq cfg hen now q hq] at hrej ⊢
    simp only [] at hrej ⊢
    by_cases hx1 : cfg.requests_per_minute ≤ (q.filter (fun s => decide (now - 60 ≤ s))).length
    · rw [if_pos hx1]
    · by_cases hx2 : cfg.burst_size ≤
          (q.filter (fun s => decide (now - 60 ≤ s))).countP (fun t => decide (now - 10 < t))
      · rw [if_neg hx1, if_pos hx2]
      · exfalso
        rw [if_neg hx1, if_neg hx2] at hrej
        exact Bool.noConfusion hrej

/-- Witness for C10: a zero-quota limiter rejects and leaves the queue as
pruned. -/
theorem rate_limiter_reject_no_record_witness :
    ([] : List ℚ).Pairwise (· ≤ ·) ∧
    (check_rate_limit ⟨true, 0, 0⟩ 0 []).1 = false ∧
    (check_rate_limit ⟨true, 0, 0⟩ 0 []).2
      = ([] : List ℚ).filter (fun s => decide ((0 : ℚ) - 60 ≤ s)) :=
  ⟨List.Pairwise.nil, rfl,
    rate_limiter_reject_no_record ⟨true, 0, 0⟩ 0 [] List.Pairwise.nil rfl⟩

/-! ## Backend manager (`src/services/backend_manager.py`) -/

/-- Modelled from the spec: `BackendConfig` and
`config_manager.get_enabled_backends` are imported by
`backend_manager.py` but defined nowhere under the sources; the descriptor
follows spec §3 (name, base address, enabled flag, timeout, max retry
count, list of supported model identifiers). -/
structure BackendConfig where
  name : String
  base_url : String
  enabled : Bool
  timeout : Nat
  max_retries : Nat
  models : List String

/-- Modelled from the spec: `config_manager.get_enabled_backends()` yields
the enabled backends in configuration order (spec §3/§4.1). -/
def get_enabled_backends (registry : List BackendConfig) : List BackendConfig :=
  registry.filter (·.enabled)

/-- Python `small in big` for strings (substring containment), on the
character lists of the two strings. -/
def hasSub (small : List Char) : List Char → Bool
  | [] => small.isEmpty
  | c :: rest => small.isPrefixOf (c :: rest) || hasSub small rest

/-- The fuzzy model match of `select_backend`:
`model.lower() in backend_model.lower() or backend_model.lower() in model.lower()`. -/
def fuzzy_match (model backend_model : String) : Bool :=
  hasSub (model.data.map Char.toLower) (backend_model.data.map Char.toLower)
    || hasSub (backend_model.data.map Char.toLower) (model.data.map Char.toLower)

/-- First loop of `select_backend`: the first enabled backend whose model
list contains the requested model exactly and whose health flag is true. -/
def selectExact (model : String) (health : String → Bool) :
    List BackendConfig → Option String
  | [] => none
  | b :: bs =>
    if b.models.contains model && health b.name then some b.name
    else selectExact model health bs

/-- Second loop of `select_backend`: the first healthy enabled backend one
of whose declared models matches fuzzily. -/
def selectFuzzy (model : String) (health : String → Bool) :
    List BackendConfig → Option String
  | [] => none
  | b :: bs =>
    if health b.name && b.models.any (fun bm => fuzzy_match model bm) then some b.name
    else selectFuzzy model health bs

/-- `BackendManager.select_backend`; `health` models
`self.health_status.get(name, False)`. -/
def select_backend (registry : List BackendConfig) (health : String → Bool)
    (model : String) : Option String :=
  match selectExact model health (get_enabled_backends registry) with
  | some name => some name
  | none => selectFuzzy model health (get_enabled_backends registry)

lemma isPrefixOf_self (l : List Char) : l.isPrefixOf l = true := by
  induction l with
  | nil => rfl
  | cons c rest ih => simp [List.isPrefixOf, ih]

lemma hasSub_self (l : List Char) : hasSub l l = true := by
  cases l with
  | nil => rfl
  | cons c rest => simp [hasSub, isPrefixOf_self]

lemma fuzzy_match_self (m : String) : fuzzy_match m m = true := by
  simp [fuzzy_match, hasSub_self]

lemma selectExact_eq_find? (model : String) (health : String → Bool) :
    ∀ l : List BackendConfig,
      selectExact model health l
        = (l.find? (fun b => b.models.contains model && health b.name)).map (·.name) := by
  intro l
  induction l with
  | nil => rfl
  | cons b bs ih =>
    rw [selectExact, List.find?_cons]
    cases hb : b.models.contains model && health b.name with
    | true => simp only [hb]; rfl
    | false => simp only [hb]; exact ih

lemma selectFuzzy_eq_find? (model : String) (health : String → Bool) :
    ∀ l : List BackendConfig,
      selectFuzzy model health l
        = (l.find? (fun b => health b.name
            && b.models.any (fun bm => fuzzy_match model bm))).map (·.name) := by
  intro l
  induction l with
  | nil => rfl
  | cons b bs ih =>
    rw [selectFuzzy, List.find?_cons]
    cases hb : health b.name && b.models.any (fun bm => fuzzy_match model bm) with
    | true => simp only [hb]; rfl
    | false => simp only [hb]; exact ih

/-- C2: `select_backend` returns the first enabled backend (in configuration
order) with an exact model match and a true health flag, falling back to the
first healthy enabled backend with a case-insensitive substring match in
either direction, and `none` otherwise; any returned backend is enabled,
healthy, and matches the requested model exactly or fuzzily. -/
theorem select_backend_first_match (registry : List BackendConfig)
    (health : String → Bool) (model : String) :
    (select_backend registry health model
      = match (get_enabled_backends registry).find?
            (fun b => b.models.contains model && health b.name) with
        | some b => some b.name
        | none => ((get_enabled_backends registry).find?
            (fun b => health b.name
              && b.models.any (fun bm => fuzzy_match model bm))).map (·.name)) ∧
    (∀ name, select_backend registry health model = some name →
      health name = true ∧
      ∃ b ∈ registry, b.enabled = true ∧ b.name = name ∧
        (b.models.contains model = true ∨
         b.models.any (fun bm => fuzzy_match model bm) = true)) := by
  have heq : select_backend registry health model
      = match (get_enabled_backends registry).find?
            (fun b => b.models.contains model && health b.name) with
        | some b => some b.name
        | none => ((get_enabled_backends registry).find?
            (fun b => health b.name
              && b.models.any (fun bm => fuzzy_match model bm))).map (·.name) := by
    unfold select_backend
    rw [selectExact_eq_find?, selectFuzzy_eq_find?]
    cases (get_enabled_backends registry).find?
        (fun b => b.models.contains model && health b.name) with
    | none => rfl
    | some b => rfl
  refine ⟨heq, ?_⟩
  intro name hsel
  rw [heq] at hsel
  cases hfe : (get_enabled_backends registry).find?
      (fun b => b.models.contains model && health b.name) with
  | some b =>
    rw [hfe] at hsel
    simp only [Option.some.injEq] at hsel
    subst hsel
    have hpred := List.find?_some hfe
    have hmem := List.mem_of_find?_eq_some hfe
    rw [Bool.and_eq_true] at hpred
    have hmem' := List.mem_filter.mp hmem
    exact ⟨hpred.2, b, hmem'.1, by simpa using hmem'.2, rfl, Or.inl hpred.1⟩
  | none =>
    rw [hfe] at hsel
    simp only [Option.map_eq_some'] at hsel
    obtain ⟨b, hfind, hname⟩ := hsel
    have hpred := List.find?_some hfind
    have hmem := List.mem_of_find?_eq_some hfind
    rw [Bool.and_eq_true] at hpred
    have hmem' := List.mem_filter.mp hmem
    subst hname
    exact ⟨hpred.1, b, hmem'.1, by simpa using hmem'.2, rfl, Or.inr hpred.2⟩

/-- Witness for C2: a one-backend registry with an exact match. -/
theorem select_backend_first_match_witness :
    select_backend [⟨"claude", "https://api", true, 60, 3, ["claude-3"]⟩]
        (fun _ => true) "claude-3" = some "claude" ∧
    ((fun (_ : String) => true) "claude" = true ∧
      ∃ b ∈ [BackendConfig.mk "claude" "https://api" true 60 3 ["claude-3"]],
        b.enabled = true ∧ b.name = "claude" ∧
        (b.models.contains "claude-3" = true ∨
         b.models.any (fun bm => fuzzy_match "claude-3" bm) = true)) :=
  ⟨rfl, (select_backend_first_match [⟨"claude", "https://api", true, 60, 3, ["claude-3"]⟩]
      (fun _ => true) "claude-3").2 "claude" rfl⟩

/-! ## Protocol translation (`BackendManager._convert_*`) -/

/-- Python `j == "s"` for a JSON-derived value `j` and string literal. -/
def Json.isStrEq (j : Json) (s : String) : Bool :=
  match j with
  | .str t => t == s
  | _ => false

/-- A JSON array's element list; Python iterates `for msg in messages`, so a
non-list raises (or for the degenerate falsy shapes iterates nothing; no
claim exercises those shapes, and they are modelled as failure). -/
def jsonToList : Json → Option (List Json)
  | .arr l => some l
  | _ => none

/-- A JSON string's value (used for `"\n".join`, which raises on
non-string elements). -/
def asString : Json → Option String
  | .str s => some s
  | _ => none

/-- `"\n".join(system_messages)`. -/
def joinNewline (l : List Json) : Option String :=
  (l.mapM asString).map (fun ss => String.intercalate "\n" ss)

/-- The partition loop of `_convert_to_claude_format`: split messages into
system contents and the remaining conversation, preserving order. -/
def claudePartition : List Json → Option (List Json × List Json)
  | [] => some ([], [])
  | msg :: rest => do
    let role ← msg.getD "role" .null
    if role.isStrEq "system" then
      let c ← msg.getKey "content"
      let (sys, conv) ← claudePartition rest
      pure (c :: sys, conv)
    else
      let (sys, conv) ← claudePartition rest
      pure (sys, msg :: conv)

/-- `BackendManager._convert_to_claude_format`. -/
def convert_to_claude_format (request_data : Json) : Option Json := do
  let messages ← request_data.getD "messages" (.arr [])
  let msgList ← jsonToList messages
  let (system_messages, conversation_messages) ← claudePartition msgList
  let modelv ← request_data.getD "model" (.str "claude-3-sonnet-20240229")
  let maxTok ← request_data.getD "max_tokens" (.num 1000)
  let base := [("model", modelv), ("max_tokens", maxTok),
    ("messages", Json.arr conversation_messages)]
  let withSys ←
    if system_messages.isEmpty then pure base
    else do
      let joined ← joinNewline system_messages
      pure (base ++ [("system", Json.str joined)])
  let extras := ["temperature", "top_p", "stream"].filterMap
    (fun k => (jget request_data k).map (fun v => (k, v)))
  pure (.obj (withSys ++ extras))

/-- One message of `_convert_to_gemini_format`: any role other than
`"user"` or `"system"` becomes `"model"`; `"system"` becomes `"user"`. -/
def geminiMsgEntry (msg : Json) : Option Json := do
  let role ← msg.getD "role" .null
  let grole := if role.isStrEq "user" || role.isStrEq "system" then "user" else "model"
  let content ← msg.getKey "content"
  pure (.obj [("role", .str grole), ("parts", .arr [.obj [("text", content)]])])

/-- `BackendManager._convert_to_gemini_format`. -/
def convert_to_gemini_format (request_data : Json) : Option Json := do
  let messages ← request_data.getD "messages" (.arr [])
  let msgList ← jsonToList messages
  let contents ← msgList.mapM geminiMsgEntry
  let maxTok ← request_data.getD "max_tokens" (.num 1000)
  let temp ← request_data.getD "temperature" (.num 1)
  let topP ← request_data.getD "top_p" (.num 1)
  pure (.obj [("contents", .arr contents),
    ("generationConfig", .obj [("maxOutputTokens", maxTok), ("temperature", temp),
      ("topP", topP)])])

/-- The `text_content` computation of `_convert_from_claude_format`:
`content[0].get("text", "")` when `content` is a truthy list (raising when
`content[0]` is not a dict), `""` otherwise. -/
def claudeExtractText (content : Json) : Option Json :=
  match content with
  | .arr (c0 :: _) => c0.getD "text" (.str "")
  | _ => pure (.str "")

/-- `BackendManager._convert_from_claude_format`; `now` is
`int(datetime.now().timestamp())`. -/
def convert_from_claude_format (now : Int) (response_data : Json) : Option Json := do
  let content ← response_data.getD "content" (.arr [])
  let text_content ← claudeExtractText content
  let idv ← response_data.getD "id" (.str "")
  let modelv ← response_data.getD "model" (.str "")
  let stopv ← response_data.getD "stop_reason" (.str "stop")
  let usage ← response_data.getD "usage" (.obj [])
  pure (.obj [("id", idv), ("object", .str "chat.completion"), ("created", .num now),
    ("model", modelv),
    ("choices", .arr [.obj [("index", .num 0),
      ("message", .obj [("role", .str "assistant"), ("content", text_content)]),
      ("finish_reason", stopv)]]),
    ("usage", usage)])

/-- Python `j[0].get(k, d)` for a JSON-derived `j`: defined only when `j`
is a non-empty array whose head is a dict; every other JSON shape raises
(`TypeError`, `KeyError` or `AttributeError`). -/
def pyHeadGetD (j : Json) (k : String) (d : Json) : Option Json :=
  match j with
  | .arr (c0 :: _) => c0.getD k d
  | _ => none

/-- The `content` computation of `_convert_from_gemini_format`:
`candidates[0].get("content", {}).get("parts", [])` and then
`parts[0].get("text", "")`, each step raising on a shape that Python
cannot subscript, with `""` when `candidates`/`parts` is falsy. -/
def geminiExtractContent (candidates : Json) : Option Json :=
  if candidates.truthy then do
    let cblock ← pyHeadGetD candidates "content" (.obj [])
    let parts ← cblock.getD "parts" (.arr [])
    if parts.truthy then pyHeadGetD parts "text" (.str "")
    else pure (.str "")
  else pure (.str "")

/-- `BackendManager._convert_from_gemini_format`. -/
def convert_from_gemini_format (now : Int) (response_data : Json) : Option Json := do
  let candidates ← response_data.getD "candidates" (.arr [])
  let content ← geminiExtractContent candidates
  pure (.obj [("id", .str ("gemini-" ++ toString now)), ("object", .str "chat.completion"),
    ("created", .num now), ("model", .str "gemini-pro"),
    ("choices", .arr [.obj [("index", .num 0),
      ("message", .obj [("role", .str "assistant"), ("content", content)]),
      ("finish_reason", .str "stop")]]),
    ("usage", .obj [("prompt_tokens", .num 0), ("completion_tokens", .num 0),
      ("total_tokens", .num 0)])])

/-- `BackendManager._convert_request` dispatch. -/
def convert_request (backend_name : String) (request_data : Json) : Option Json :=
  if backend_name == "claude" then convert_to_claude_format request_data
  else if backend_name == "gemini" then convert_to_gemini_format request_data
  else some request_data

/-- `BackendManager._convert_response` dispatch. -/
def convert_response (backend_name : String) (now : Int) (response_data : Json) :
    Option Json :=
  if backend_name == "claude" then convert_from_claude_format now response_data
  else if backend_name == "gemini" then convert_from_gemini_format now response_data
  else some response_data

/-! ## Forwarding with retry (`BackendManager.forward_request`) -/

/-- Result of one network attempt (`client.post` followed by
`raise_for_status`). -/
inductive CallResult where
  | success (resp : Json)
  | httpError (status : Nat)
  | connError

/-- How the retry loop of `forward_request` ends. -/
inductive FwdOutcome where
  | ok (converted : Json)
  | raisedStatus (status : Nat)
  | raisedConn
  | raisedInternal
  | raisedNone

/-- Observable trace of one `forward_request` call: number of attempts made,
the backoff sleeps (in seconds) between attempts, the sequence of writes to
the backend's health flag, and the final outcome. -/
structure FwdTrace where
  attempts : Nat
  sleeps : List Nat
  healthWrites : List Bool
  outcome : FwdOutcome

/-- The `for attempt in range(max_retries + 1)` loop of `forward_request`.
`fuel` is the number of remaining loop iterations; when it runs out the
last stored exception is re-raised. On a 5xx the health flag is written
`False` and, unless this was the last attempt, the task sleeps
`2 ** attempt` seconds and retries; a 5xx on the last attempt skips the
sleep and falls out of the loop. A non-5xx HTTP error re-raises at once.
Connection/timeout failures behave like 5xx. On success the response is
converted (an exception there propagates) and the health flag is written
`True`. -/
def forwardAux (backend_name : String) (now : Int) (call : Nat → CallResult)
    (max_retries : Nat) :
    Nat → Nat → List Nat → List Bool → Option FwdOutcome → FwdTrace
  | 0, attempt, sleeps, hw, lastExc => ⟨attempt, sleeps, hw, lastExc.getD .raisedNone⟩
  | fuel + 1, attempt, sleeps, hw, _lastExc =>
    match call attempt with
    | .success resp =>
      match convert_response backend_name now resp with
      | some conv => ⟨attempt + 1, sleeps, hw ++ [true], .ok conv⟩
      | none => ⟨attempt + 1, sleeps, hw, .raisedInternal⟩
    | .httpError status =>
      if 500 ≤ status then
        if attempt < max_retries then
          forwardAux backend_name now call max_retries fuel (attempt + 1)
            (sleeps ++ [2 ^ attempt]) (hw ++ [false]) (some (.raisedStatus status))
        else
          forwardAux backend_name now call max_retries fuel (attempt + 1)
            sleeps (hw ++ [false]) (some (.raisedStatus status))
      else ⟨attempt + 1, sleeps, hw, .raisedStatus status⟩
    | .connError =>
      if attempt < max_retries then
        forwardAux backend_name now call max_retries fuel (attempt + 1)
          (sleeps ++ [2 ^ attempt]) (hw ++ [false]) (some .raisedConn)
      else
        forwardAux backend_name now call max_retries fuel (attempt + 1)
          sleeps (hw ++ [false]) (some .raisedConn)

/-- `BackendManager.forward_request`: convert the request (a failure there
propagates before any attempt), then run the retry loop; `call i` is the
result of the network call at attempt `i`. -/
def forward_request (backend_name : String) (now : Int) (request_data : Json)
    (call : Nat → CallResult) (max_retries : Nat) : Option FwdTrace :=
  (convert_request backend_name request_data).map (fun _ =>
    forwardAux backend_name now call max_retries (max_retries + 1) 0 [] [] none)

lemma forwardAux_attempts_le (bn : String) (now : Int) (call : Nat → CallResult)
    (mr : Nat) :
    ∀ (fuel attempt : Nat) (sleeps : List Nat) (hw : List Bool)
      (le : Option FwdOutcome),
      (forwardAux bn now call mr fuel attempt sleeps hw le).attempts ≤ attempt + fuel := by
  intro fuel
  induction fuel with
  | zero => intro attempt sleeps hw le; simp [forwardAux]
  | succ n ih =>
    intro attempt sleeps hw le
    rw [forwardAux]
    cases call attempt with
    | success resp =>
      dsimp only
      cases convert_response bn now resp with
      | some conv => dsimp only; omega
      | none => dsimp only; omega
    | httpError status =>
      dsimp only
      by_cases h5 : 500 ≤ status
      · rw [if_pos h5]
        by_cases hlt : attempt < mr
        · rw [if_pos hlt]
          calc (forwardAux bn now call mr n (attempt + 1) _ _ _).attempts
              ≤ (attempt + 1) + n := ih _ _ _ _
            _ = attempt + (n + 1) := by omega
        · rw [if_neg hlt]
          calc (forwardAux bn now call mr n (attempt + 1) _ _ _).attempts
              ≤ (attempt + 1) + n := ih _ _ _ _
            _ = attempt + (n + 1) := by omega
      · rw [if_neg h5]
        dsimp only
        omega
    | connError =>
      dsimp only
      by_cases hlt : attempt < mr
      · rw [if_pos hlt]
        calc (forwardAux bn now call mr n (attempt + 1) _ _ _).attempts
            ≤ (attempt + 1) + n := ih _ _ _ _
          _ = attempt + (n + 1) := by omega
      · rw [if_neg hlt]
        calc (forwardAux bn now call mr n (attempt + 1) _ _ _).attempts
            ≤ (attempt + 1) + n := ih _ _ _ _
          _ = attempt + (n + 1) := by omega

lemma forwardAux_retry_only (bn : String) (now : Int) (call : Nat → CallResult)
    (mr : Nat) :
    ∀ (fuel attempt : Nat) (sleeps : List Nat) (hw : List Bool)
      (le : Option FwdOutcome) (i : Nat), attempt ≤ i →
      i + 1 < (forwardAux bn now call mr fuel attempt sleeps hw le).attempts →
      (∃ s, call i = .httpError s ∧ 500 ≤ s) ∨ call i = .connError := by
  intro fuel
  induction fuel with
  | zero =>
    intro attempt sleeps hw le i hai hlt
    rw [forwardAux] at hlt
    simp at hlt
    omega
  | succ n ih =>
    intro attempt sleeps hw le i hai hlt
    rw [forwardAux] at hlt
    cases hc : call attempt with
    | success resp =>
      rw [hc] at hlt
      dsimp only at hlt
      cases hconv : convert_response bn now resp with
      | some conv => rw [hconv] at hlt; dsimp only at hlt; omega
      | none => rw [hconv] at hlt; dsimp only at hlt; omega
    | httpError status =>
      rw [hc] at hlt
      dsimp only at hlt
      by_cases h5 : 500 ≤ status
      · rw [if_pos h5] at hlt
        rcases eq_or_lt_of_le hai with heq | hlt2
        · exact Or.inl ⟨status, heq ▸ hc, h5⟩
        · by_cases hmr : attempt < mr
          · rw [if_pos hmr] at hlt
            exact ih _ _ _ _ i hlt2 hlt
          · rw [if_neg hmr] at hlt
            exact ih _ _ _ _ i hlt2 hlt
      · rw [if_neg h5] at hlt
        dsimp only at hlt
        omega
    | connError =>
      rw [hc] at hlt
      dsimp only at hlt
      rcases eq_or_lt_of_le hai with heq | hlt2
      · exact Or.inr (heq ▸ hc)
      · by_cases hmr : attempt < mr
        · rw [if_pos hmr] at hlt
          exact ih _ _ _ _ i hlt2 hlt
        · rw [if_neg hmr] at hlt
          exact ih _ _ _ _ i hlt2 hlt

lemma forwardAux_all_5xx (bn : String) (now : Int) (call : Nat → CallResult)
    (mr : Nat) (h5 : ∀ i, ∃ s, call i = CallResult.httpError s ∧ 500 ≤ s) :
    ∀ (fuel attempt : Nat) (sleeps : List Nat) (hw : List Bool)
      (le : Option FwdOutcome), fuel ≠ 0 → attempt + fuel = mr + 1 →
      ∃ slast, call mr = CallResult.httpError slast ∧
        forwardAux bn now call mr fuel attempt sleeps hw le
          = ⟨mr + 1, sleeps ++ ((List.range' attempt (fuel - 1)).map (fun a => 2 ^ a)),
             hw ++ List.replicate fuel false, .raisedStatus slast⟩ := by
  intro fuel
  induction fuel with
  | zero => intro attempt sleeps hw le hne; exact absurd rfl hne
  | succ n ih =>
    intro attempt sleeps hw le _ hsum
    obtain ⟨s, hc, hs⟩ := h5 attempt
    rw [forwardAux, hc]
    dsimp only
    rw [if_pos hs]
    cases n with
    | zero =>
      have hattempt : attempt = mr := by omega
      rw [if_neg (by omega)]
      refine ⟨s, hattempt ▸ hc, ?_⟩
      rw [forwardAux]
      subst hattempt
      simp
    | succ m =>
      rw [if_pos (by omega)]
      obtain ⟨slast, hcl, heq⟩ := ih (attempt + 1) (sleeps ++ [2 ^ attempt])
        (hw ++ [false]) (some (.raisedStatus s)) (by omega) (by omega)
      refine ⟨slast, hcl, ?_⟩
      simp only [Nat.add_sub_cancel] at heq ⊢
      rw [heq, List.append_assoc, List.append_assoc]
      rfl

/-- C3: for a backend with `maxRetries = 3` whose every attempt yields a
5xx, `forward_request` makes exactly 4 attempts, sleeps 1, 2 and 4 seconds
between consecutive attempts, writes the health flag `False` before each
retry and before giving up, and re-raises the last failure; in general it
makes at most `maxRetries + 1` attempts and a further attempt follows
attempt `i` only when attempt `i` was a 5xx or a connection/timeout
failure. -/
theorem forward_request_retries_5xx :
    (∀ (bn : String) (now : Int) (req cd : Json) (call : Nat → CallResult),
      convert_request bn req = some cd →
      (∀ i, ∃ s, call i = CallResult.httpError s ∧ 500 ≤ s) →
      ∃ s3, call 3 = CallResult.httpError s3 ∧
        forward_request bn now req call 3
          = some ⟨4, [1, 2, 4], [false, false, false, false], .raisedStatus s3⟩) ∧
    (∀ (bn : String) (now : Int) (req : Json) (call : Nat → CallResult)
      (mr : Nat) (tr : FwdTrace), forward_request bn now req call mr = some tr →
      tr.attempts ≤ mr + 1) ∧
    (∀ (bn : String) (now : Int) (req : Json) (call : Nat → CallResult)
      (mr : Nat) (tr : FwdTrace) (i : Nat),
      forward_request bn now req call mr = some tr → i + 1 < tr.attempts →
      (∃ s, call i = CallResult.httpError s ∧ 500 ≤ s) ∨ call i = CallResult.connError) := by
  refine ⟨?_, ?_, ?_⟩
  · intro bn now req cd call hconv hcall
    obtain ⟨s3, hc3, heq⟩ := forwardAux_all_5xx bn now call 3 hcall (3 + 1) 0 [] [] none
      (by omega) (by omega)
    refine ⟨s3, hc3, ?_⟩
    unfold forward_request
    rw [hconv]
    simp only [Option.map_some']
    rw [heq]
    have hr : (List.range' 0 3).map (fun a => (2 : Nat) ^ a) = [1, 2, 4] := by decide
    have hrep : List.replicate (3 + 1) false = [false, false, false, false] := by decide
    rw [hr, hrep]
    simp
  · intro bn now req call mr tr h
    rw [forward_request, Option.map_eq_some'] at h
    obtain ⟨cd, _, htr⟩ := h
    rw [← htr]
    simpa using forwardAux_attempts_le bn now call mr (mr + 1) 0 [] [] none
  · intro bn now req call mr tr i h hlt
    rw [forward_request, Option.map_eq_some'] at h
    obtain ⟨cd, _, htr⟩ := h
    rw [← htr] at hlt
    exact forwardAux_retry_only bn now call mr (mr + 1) 0 [] [] none i (Nat.zero_le i) hlt

/-- Witness for C3 at a backend that always answers 503. -/
theorem forward_request_retries_5xx_witness :
    convert_request "openai" (Json.obj []) = some (Json.obj []) ∧
    (∃ s3, (fun _ : Nat => CallResult.httpError 503) 3 = CallResult.httpError s3 ∧
      forward_request "openai" 0 (Json.obj []) (fun _ => CallResult.httpError 503) 3
        = some ⟨4, [1, 2, 4], [false, false, false, false], .raisedStatus s3⟩) :=
  ⟨rfl, forward_request_retries_5xx.1 "openai" 0 (Json.obj []) (Json.obj [])
    (fun _ => CallResult.httpError 503) rfl (fun _ => ⟨503, rfl, by norm_num⟩)⟩

/-- C4: a 4xx on the first attempt, for any configured `maxRetries`, means
exactly one attempt, no backoff sleep, no write to the health flag, and the
client error re-raised at once. -/
theorem forward_request_4xx_single_attempt (bn : String) (now : Int)
    (req cd : Json) (call : Nat → CallResult) (mr s : Nat)
    (hconv : convert_request bn req = some cd)
    (hc : call 0 = CallResult.httpError s) (h4 : 400 ≤ s) (h5 : s < 500) :
    forward_request bn now req call mr = some ⟨1, [], [], .raisedStatus s⟩ := by
  unfold forward_request
  rw [hconv]
  simp only [Option.map_some']
  rw [forwardAux, hc]
  dsimp only
  rw [if_neg (by omega)]

/-- Witness for C4 at a backend that answers 404 with `maxRetries = 3`. -/
theorem forward_request_4xx_single_attempt_witness :
    convert_request "openai" (Json.obj []) = some (Json.obj []) ∧
    (fun _ : Nat => CallResult.httpError 404) 0 = CallResult.httpError 404 ∧
    400 ≤ 404 ∧ 404 < 500 ∧
    forward_request "openai" 0 (Json.obj []) (fun _ => CallResult.httpError 404) 3
      = some ⟨1, [], [], .raisedStatus 404⟩ :=
  ⟨rfl, rfl, by norm_num, by norm_num,
    forward_request_4xx_single_attempt "openai" 0 (Json.obj []) (Json.obj [])
      (fun _ => CallResult.httpError 404) 3 404 rfl rfl (by norm_num) (by norm_num)⟩

/-! ## Chat-completions handler (`main.py`) -/

/-- How the `/v1/chat/completions` handler proceeds up to the backend call. -/
inductive RouteOutcome where
  | clientError (status : Nat)
  | forwarded (backend : String)

/-- The validation and dispatch prefix of `chat_completions` in `main.py`:
read `model` with default `""`, raise HTTP 400 when it is falsy, otherwise
select a backend (HTTP 400 when none is found) and forward the request.
`select` abstracts `backend_manager.select_backend`; an overall `none`
models an exception while reading the body. -/
def chat_completions_route (select : Json → Option String) (request_data : Json) :
    Option RouteOutcome :=
  (request_data.getD "model" (.str "")).bind (fun modelv =>
    if !modelv.truthy then some (.clientError 400)
    else
      match select modelv with
      | none => some (.clientError 400)
      | some backend => some (.forwarded backend))

/-- C5 counterexample: a request with a non-empty model and an empty
`messages` list is not rejected by the handler — it selects a backend and
forwards, so empty `messages` does not yield an immediate client error. -/
theorem chat_completions_empty_messages_forwarded :
    chat_completions_route (fun _ => some "openai")
        (.obj [("model", .str "gpt-4"), ("messages", .arr [])])
      = some (.forwarded "openai") ∧
    ∀ s, RouteOutcome.forwarded "openai" ≠ RouteOutcome.clientError s := by
  refine ⟨rfl, ?_⟩
  intro s h
  exact RouteOutcome.noConfusion h

/-- C5 (amended): a request whose `model` field is empty (falsy) is
rejected with HTTP 400 for every backend selector, without forwarding;
an empty `messages` list is not validated: with a truthy model and a
successful selection the request is forwarded regardless of `messages`. -/
theorem chat_completions_empty_model_rejected :
    (∀ (select : Json → Option String) (data modelv : Json),
      data.getD "model" (.str "") = some modelv → modelv.truthy = false →
      chat_completions_route select data = some (.clientError 400)) ∧
    (∀ (select : Json → Option String) (data modelv : Json) (b : String),
      data.getD "model" (.str "") = some modelv → modelv.truthy = true →
      select modelv = some b →
      chat_completions_route select data = some (.forwarded b)) := by
  constructor
  · intro select data modelv hm hf
    unfold chat_completions_route
    rw [hm]
    simp [hf]
  · intro select data modelv b hm ht hs
    unfold chat_completions_route
    rw [hm]
    simp [ht, hs]

/-- Witness for C5 (amended) at a request with an empty model string. -/
theorem chat_completions_empty_model_rejected_witness :
    (Json.obj [("model", Json.str "")]).getD "model" (.str "") = some (.str "") ∧
    (Json.str "").truthy = false ∧
    chat_completions_route (fun _ => some "openai") (.obj [("model", .str "")])
      = some (.clientError 400) :=
  ⟨rfl, rfl, chat_completions_empty_model_rejected.1 (fun _ => some "openai")
    (.obj [("model", .str "")]) (.str "") rfl rfl⟩

/-! ## Context manager (`src/services/context_manager.py`) -/

/-- `Message` from `context_manager.py`. -/
structure Message where
  role : String
  content : String
  timestamp : ℚ

/-- Python `lst[-k:]`: for `k = 0` this is the WHOLE list (`lst[-0:]` is
`lst[0:]`), otherwise the last `k` elements. -/
def sliceLast (k : Nat) (l : List Message) : List Message :=
  if k = 0 then l else l.drop (l.length - k)

/-- `ContextManager.add_message`, acting on the session's message list:
append the new message, then keep only `messages[-max_context_messages:]`
when the count exceeds the configured maximum. -/
def add_message (max_context_messages : Nat) (messages : List Message)
    (role content : String) (now : ℚ) : List Message :=
  let messages' := messages ++ [⟨role, content, now⟩]
  if max_context_messages < messages'.length then
    sliceLast max_context_messages messages'
  else messages'

/-- The last `k` entries of a list. -/
def takeLast (k : Nat) (l : List Message) : List Message := l.drop (l.length - k)

/-- C8 counterexample: with `max_context_messages = 0` the trim slice
`messages[-0:]` is the whole list, so a single append leaves 1 > 0
messages: the message count exceeds the configured maximum. -/
theorem add_message_zero_max_exceeded :
    (add_message 0 [] "user" "hi" 0).length = 1 ∧
    ¬((add_message 0 [] "user" "hi" 0).length ≤ 0) := by
  constructor <;> simp [add_message, sliceLast]

lemma add_message_eq_takeLast (k : Nat) (hk : 1 ≤ k) (messages : List Message)
    (role content : String) (now : ℚ) :
    add_message k messages role content now
      = takeLast k (messages ++ [⟨role, content, now⟩]) := by
  unfold add_message takeLast sliceLast
  by_cases h : k < (messages ++ [(⟨role, content, now⟩ : Message)]).length
  · rw [if_pos h, if_neg (by omega)]
  · rw [if_neg h]
    have h0 : (messages ++ [(⟨role, content, now⟩ : Message)]).length - k = 0 := by omega
    rw [h0, List.drop_zero]

lemma takeLast_length_le (k : Nat) (l : List Message) : (takeLast k l).length ≤ k := by
  unfold takeLast
  rw [List.length_drop]
  omega

lemma takeLast_append_takeLast (k : Nat) (l ms : List Message) :
    takeLast k (takeLast k l ++ ms) = takeLast k (l ++ ms) := by
  unfold takeLast
  by_cases hk : k ≤ l.length
  · have hlen : (l.drop (l.length - k)).length = k := by
      rw [List.length_drop]; omega
    have hidx : ((l.drop (l.length - k)) ++ ms).length - k = ms.length := by
      rw [List.length_append, hlen]; omega
    have hidx2 : (l ++ ms).length - k = (l.length - k) + ms.length := by
      rw [List.length_append]; omega
    rw [hidx, hidx2, ← List.drop_drop,
      List.drop_append_of_le_length (show l.length - k ≤ l.length by omega)]
  · have h0 : l.length - k = 0 := by omega
    rw [h0, List.drop_zero]

lemma foldl_add_message (k : Nat) (hk : 1 ≤ k) :
    ∀ (entries acc : List Message), acc.length ≤ k →
      entries.foldl (fun msgs m => add_message k msgs m.role m.content m.timestamp) acc
        = takeLast k (acc ++ entries) := by
  intro entries
  induction entries with
  | nil =>
    intro acc hacc
    rw [List.foldl_nil, List.append_nil]
    unfold takeLast
    have h0 : acc.length - k = 0 := by omega
    rw [h0, List.drop_zero]
  | cons m rest ih =>
    intro acc hacc
    rw [List.foldl_cons, add_message_eq_takeLast k hk,
      ih _ (takeLast_length_le k _), takeLast_append_takeLast, List.append_assoc]
    rfl

/-- C8 (amended): with a configured maximum of at least 1, the message
count after any append is at most the maximum, and appending
`max_context_messages + 5` messages to a fresh session leaves exactly the
last `max_context_messages` of them, in original insertion order. -/
theorem add_message_respects_max (k : Nat) (hk : 1 ≤ k) :
    (∀ (messages : List Message) (role content : String) (now : ℚ),
      (add_message k messages role content now).length ≤ k) ∧
    (∀ entries : List Message, entries.length = k + 5 →
      entries.foldl (fun msgs m => add_message k msgs m.role m.content m.timestamp) []
        = entries.drop 5) := by
  constructor
  · intro messages role content now
    rw [add_message_eq_takeLast k hk]
    exact takeLast_length_le k _
  · intro entries hlen
    rw [foldl_add_message k hk entries [] (by simp), List.nil_append]
    unfold takeLast
    rw [hlen]
    congr 1
    omega

/-- Witness for C8 (amended): `max_context_messages = 1`, six appends. -/
theorem add_message_respects_max_witness :
    1 ≤ 1 ∧
    ([⟨"user", "m1", 0⟩, ⟨"user", "m2", 0⟩, ⟨"user", "m3", 0⟩, ⟨"user", "m4", 0⟩,
      ⟨"user", "m5", 0⟩, ⟨"user", "m6", 0⟩] : List Message).foldl
        (fun msgs m => add_message 1 msgs m.role m.content m.timestamp) []
      = ([⟨"user", "m1", 0⟩, ⟨"user", "m2", 0⟩, ⟨"user", "m3", 0⟩, ⟨"user", "m4", 0⟩,
          ⟨"user", "m5", 0⟩, ⟨"user", "m6", 0⟩] : List Message).drop 5 :=
  ⟨le_refl 1, (add_message_respects_max 1 (le_refl 1)).2 _ rfl⟩

/-! ## Metrics collector (`src/services/metrics.py`) -/

/-- `RequestMetric` from `metrics.py`. -/
structure RequestMetric where
  timestamp : ℚ
  method : String
  path : String
  status_code : Nat
  response_time : ℚ
  backend : String
  model : String

/-- The retained-samples component (`self.requests`) of
`MetricsCollector.record_request`: append a sample timestamped `now`;
if more than 10000 samples are then retained, keep exactly those whose
timestamps lie within the last 24 hours (86400 seconds). The per-backend
aggregates and hourly buckets are separate fields not touched by this
retention logic. -/
def record_request (now : ℚ) (requests : List RequestMetric)
    (method path : String) (status_code : Nat) (response_time : ℚ)
    (backend model : String) : List RequestMetric :=
  let requests' := requests
    ++ [(⟨now, method, path, status_code, response_time, backend, model⟩ : RequestMetric)]
  if 10000 < requests'.length then
    requests'.filter (fun r => decide (now - 86400 < r.timestamp))
  else requests'

/-- A fixed sample used in the C9 run below. -/
def sampleMetric : RequestMetric := ⟨0, "GET", "/v1/chat/completions", 200, 0, "", ""⟩

/-- Recording `n` identical samples at time 0 retains all of them: the
24-hour prune never removes a sample recorded in the same instant. -/
lemma record_request_same_time (n : Nat) :
    ∀ j : Nat,
      (List.replicate n (0 : ℚ)).foldl
          (fun st t => record_request t st "GET" "/v1/chat/completions" 200 0 "" "")
          (List.replicate j sampleMetric)
        = List.replicate (j + n) sampleMetric := by
  induction n with
  | zero => intro j; simp
  | succ m ih =>
    intro j
    rw [List.replicate_succ, List.foldl_cons]
    have hstep : record_request 0 (List.replicate j sampleMetric)
        "GET" "/v1/chat/completions" 200 0 "" "" = List.replicate (j + 1) sampleMetric := by
      unfold record_request
      have happ : List.replicate j sampleMetric
          ++ [(⟨0, "GET", "/v1/chat/completions", 200, 0, "", ""⟩ : RequestMetric)]
          = List.replicate (j + 1) sampleMetric := by
        rw [List.replicate_succ']
        rfl
      rw [happ]
      have hfilter : (List.replicate (j + 1) sampleMetric).filter
          (fun r => decide ((0 : ℚ) - 86400 < r.timestamp))
          = List.replicate (j + 1) sampleMetric := by
        refine List.filter_eq_self.mpr ?_
        intro a ha
        have := List.eq_of_mem_replicate ha
        subst this
        show decide ((0 : ℚ) - 86400 < sampleMetric.timestamp) = true
        rw [decide_eq_true_eq]
        show (0 : ℚ) - 86400 < 0
        norm_num
      by_cases hlen : 10000 < (List.replicate (j + 1) sampleMetric).length
      · rw [if_pos hlen, hfilter]
      · rw [if_neg hlen]
    rw [hstep, ih (j + 1)]
    congr 1
    omega

/-- C9 counterexample: after 10001 `record_request` calls in the same
second the retained sample list holds 10001 > 10000 samples — the 24-hour
prune removes nothing, so the 10000-sample cap is exceeded. -/
theorem metrics_cap_exceeded :
    ¬(((List.replicate 10001 (0 : ℚ)).foldl
        (fun st t => record_request t st "GET" "/v1/chat/completions" 200 0 "" "")
        []).length ≤ 10000) := by
  have h := record_request_same_time 10001 0
  rw [show List.replicate 0 sampleMetric = [] from rfl] at h
  rw [h, List.length_replicate]
  omega

/-- C9 (amended): whenever an append pushes the retained list past 10000
samples, pruning keeps exactly the samples whose timestamps lie within the
last 24 hours (possibly more than 10000 of them), and every retained sample
is within that window; without overflow the sample is simply appended. -/
theorem record_request_prunes_to_24h (now : ℚ) (requests : List RequestMetric)
    (method path : String) (status_code : Nat) (response_time : ℚ)
    (backend model : String) :
    (10000 < requests.length + 1 →
      record_request now requests method path status_code response_time backend model
        = (requests ++ [(⟨now, method, path, status_code, response_time, backend, model⟩ : RequestMetric)]).filter
            (fun r => decide (now - 86400 < r.timestamp)) ∧
      ∀ r ∈ record_request now requests method path status_code response_time backend model,
        now - 86400 < r.timestamp) ∧
    (¬(10000 < requests.length + 1) →
      record_request now requests method path status_code response_time backend model
        = requests ++ [(⟨now, method, path, status_code, response_time, backend, model⟩ : RequestMetric)]) := by
  have hlen : (requests
      ++ [(⟨now, method, path, status_code, response_time, backend, model⟩ : RequestMetric)]).length
      = requests.length + 1 := by
    rw [List.length_append]
    rfl
  constructor
  · intro hover
    have heq : record_request now requests method path status_code response_time backend model
        = (requests ++ [(⟨now, method, path, status_code, response_time, backend, model⟩ : RequestMetric)]).filter
            (fun r => decide (now - 86400 < r.timestamp)) := by
      unfold record_request
      rw [if_pos (by rw [hlen]; exact hover)]
    refine ⟨heq, ?_⟩
    intro r hr
    rw [heq] at hr
    have := List.of_mem_filter hr
    rwa [decide_eq_true_eq] at this
  · intro hunder
    unfold record_request
    rw [if_neg (by rw [hlen]; exact hunder)]

/-- Witness for C9 (amended): an overflow step on 10000 retained samples. -/
theorem record_request_prunes_to_24h_witness :
    10000 < (List.replicate 10000 sampleMetric).length + 1 ∧
    (record_request 0 (List.replicate 10000 sampleMetric) "GET" "/" 200 0 "" ""
        = ((List.replicate 10000 sampleMetric)
            ++ [(⟨0, "GET", "/", 200, 0, "", ""⟩ : RequestMetric)]).filter
            (fun r => decide ((0 : ℚ) - 86400 < r.timestamp)) ∧
      ∀ r ∈ record_request 0 (List.replicate 10000 sampleMetric) "GET" "/" 200 0 "" "",
        (0 : ℚ) - 86400 < r.timestamp) :=
  ⟨by rw [List.length_replicate]; omega,
    (record_request_prunes_to_24h 0 (List.replicate 10000 sampleMetric)
      "GET" "/" 200 0 "" "").1 (by rw [List.length_replicate]; omega)⟩

/-! ## Shape predicates and extractors for the response translations -/

/-- The Claude `content` shapes on which `content[0].get("text", "")` does
not raise: any non-list or empty list (yielding `""`), or a list whose
first element is a dict. -/
def contentSafe : Json → Bool
  | .arr (c0 :: _) => (match c0 with | .obj _ => true | _ => false)
  | _ => true

/-- The text the Claude translation extracts from a safe `content`. -/
def claudeText : Json → Json
  | .arr (.obj f :: _) => (f.lookup "text").getD (.str "")
  | _ => .str ""

/-- The Gemini `parts` shapes on which `parts[0].get("text", "")` does not
raise: a falsy value, or a list whose first element is a dict. -/
def partsSafe : Json → Bool
  | .arr (p0 :: _) => (match p0 with | .obj _ => true | _ => false)
  | p => !p.truthy

/-- The text extracted from a safe `parts`. -/
def geminiAnswerFromParts : Json → Json
  | .arr (.obj h :: _) => (h.lookup "text").getD (.str "")
  | _ => .str ""

/-- Safe shapes for `candidates[0].get("content", {})`. -/
def cblockSafe : Json → Bool
  | .obj g => partsSafe ((g.lookup "parts").getD (.arr []))
  | _ => false

/-- The text extracted from a safe content block. -/
def geminiAnswerFromCblock : Json → Json
  | .obj g => geminiAnswerFromParts ((g.lookup "parts").getD (.arr []))
  | _ => .str ""

/-- The Gemini `candidates` shapes on which the translation does not
raise. -/
def candidatesSafe : Json → Bool
  | .arr (c0 :: _) => (match c0 with
      | .obj f => cblockSafe ((f.lookup "content").getD (.obj []))
      | _ => false)
  | c => !c.truthy

/-- The answer the Gemini translation extracts from safe `candidates`. -/
def geminiAnswer : Json → Json
  | .arr (.obj f :: _) => geminiAnswerFromCblock ((f.lookup "content").getD (.obj []))
  | _ => .str ""

lemma claudeExtractText_safe (c : Json) (h : contentSafe c = true) :
    claudeExtractText c = some (claudeText c) := by
  rcases c with _ | b | n | s | l | f
  · rfl
  · rfl
  · rfl
  · rfl
  · rcases l with _ | ⟨c0, rest⟩
    · rfl
    · rcases c0 with _ | b0 | n0 | s0 | l0 | f0
      · exact Bool.noConfusion h
      · exact Bool.noConfusion h
      · exact Bool.noConfusion h
      · exact Bool.noConfusion h
      · exact Bool.noConfusion h
      · rfl
  · rfl

lemma partsBranch_safe (p : Json) (h : partsSafe p = true) :
    (if p.truthy then pyHeadGetD p "text" (.str "") else pure (.str ""))
      = some (geminiAnswerFromParts p) := by
  rcases p with _ | b | n | s | l | g
  · rfl
  · rcases b with _ | _
    · rfl
    · exact Bool.noConfusion h
  · have h' : (!Json.truthy (.num n)) = true := h
    rw [Bool.not_eq_true'] at h'
    rw [h']
    rfl
  · have h' : (!Json.truthy (.str s)) = true := h
    rw [Bool.not_eq_true'] at h'
    rw [h']
    rfl
  · rcases l with _ | ⟨p0, rest⟩
    · rfl
    · rcases p0 with _ | b0 | n0 | s0 | l0 | h0
      · exact Bool.noConfusion h
      · exact Bool.noConfusion h
      · exact Bool.noConfusion h
      · exact Bool.noConfusion h
      · exact Bool.noConfusion h
      · rfl
  · have h' : (!Json.truthy (.obj g)) = true := h
    rw [Bool.not_eq_true'] at h'
    rw [h']
    rfl

lemma geminiExtractContent_safe (c : Json) (h : candidatesSafe c = true) :
    geminiExtractContent c = some (geminiAnswer c) := by
  rcases c with _ | b | n | s | l | f
  · rfl
  · rcases b with _ | _
    · rfl
    · exact Bool.noConfusion h
  · have h' : (!Json.truthy (.num n)) = true := h
    rw [Bool.not_eq_true'] at h'
    unfold geminiExtractContent
    rw [h']
    rfl
  · have h' : (!Json.truthy (.str s)) = true := h
    rw [Bool.not_eq_true'] at h'
    unfold geminiExtractContent
    rw [h']
    rfl
  · rcases l with _ | ⟨c0, rest⟩
    · rfl
    · rcases c0 with _ | b0 | n0 | s0 | l0 | f0
      · exact Bool.noConfusion h
      · exact Bool.noConfusion h
      · exact Bool.noConfusion h
      · exact Bool.noConfusion h
      · exact Bool.noConfusion h
      · have hstep : geminiExtractContent (.arr (.obj f0 :: rest))
            = (((f0.lookup "content").getD (.obj [])).getD "parts" (.arr [])).bind
                (fun parts => if parts.truthy then pyHeadGetD parts "text" (.str "")
                  else pure (.str "")) := rfl
        have hsafe : (match (f0.lookup "content").getD (.obj []) with
            | .obj g => partsSafe ((g.lookup "parts").getD (.arr []))
            | _ => false) = true := h
        have hans : geminiAnswer (.arr (.obj f0 :: rest))
            = geminiAnswerFromCblock ((f0.lookup "content").getD (.obj [])) := rfl
        rw [hstep, hans]
        generalize (f0.lookup "content").getD (.obj []) = cb at hsafe ⊢
        rcases cb with _ | b1 | n1 | s1 | l1 | g
        · exact Bool.noConfusion hsafe
        · exact Bool.noConfusion hsafe
        · exact Bool.noConfusion hsafe
        · exact Bool.noConfusion hsafe
        · exact Bool.noConfusion hsafe
        · have hsafe' : partsSafe ((g.lookup "parts").getD (.arr [])) = true := hsafe
          have hgd : (Json.obj g).getD "parts" (.arr [])
              = some ((g.lookup "parts").getD (.arr [])) := rfl
          rw [hgd, Option.some_bind, partsBranch_safe _ hsafe']
          rfl
  · have h' : (!Json.truthy (.obj f)) = true := h
    rw [Bool.not_eq_true'] at h'
    unfold geminiExtractContent
    rw [h']
    rfl

lemma convert_from_claude_obj (now : Int) (fields : List (String × Json)) :
    convert_from_claude_format now (.obj fields)
      = (claudeExtractText ((fields.lookup "content").getD (.arr []))).bind
          (fun text_content =>
            some (.obj [("id", (fields.lookup "id").getD (.str "")),
              ("object", .str "chat.completion"), ("created", .num now),
              ("model", (fields.lookup "model").getD (.str "")),
              ("choices", .arr [.obj [("index", .num 0),
                ("message", .obj [("role", .str "assistant"), ("content", text_content)]),
                ("finish_reason", (fields.lookup "stop_reason").getD (.str "stop"))]]),
              ("usage", (fields.lookup "usage").getD (.obj []))])) := rfl

lemma convert_from_gemini_obj (now : Int) (fields : List (String × Json)) :
    convert_from_gemini_format now (.obj fields)
      = (geminiExtractContent ((fields.lookup "candidates").getD (.arr []))).bind
          (fun content =>
            some (.obj [("id", .str ("gemini-" ++ toString now)),
              ("object", .str "chat.completion"), ("created", .num now),
              ("model", .str "gemini-pro"),
              ("choices", .arr [.obj [("index", .num 0),
                ("message", .obj [("role", .str "assistant"), ("content", content)]),
                ("finish_reason", .str "stop")]]),
              ("usage", .obj [("prompt_tokens", .num 0), ("completion_tokens", .num 0),
                ("total_tokens", .num 0)])])) := rfl

/-- C6 counterexample: a Claude-family response whose `content` is a
non-empty list with a non-dict first element makes the translation raise
(`content[0].get` on an int is an `AttributeError`), so translation is not
total over native response values. -/
theorem claude_translation_not_total :
    convert_from_claude_format 0 (.obj [("content", .arr [.num 5])]) = none := rfl

/-- C6 (amended): for object-shaped native responses whose `content`
(Claude) resp. `candidates` (Gemini) chains are dict-shaped where indexed,
translation succeeds and the unified response populates `id`, `object`,
`created`, `model`, exactly one `choices[0].message.content`, a
`finish_reason`, and a `usage` field; the Gemini `usage` counters are
present and zero, while the Claude `usage` is the native value passed
through (defaulting to an empty object, so its counters may be absent). -/
theorem translation_total_on_safe_shapes :
    (∀ (now : Int) (fields : List (String × Json)),
      contentSafe ((fields.lookup "content").getD (.arr [])) = true →
      convert_from_claude_format now (.obj fields)
        = some (.obj [("id", (fields.lookup "id").getD (.str "")),
            ("object", .str "chat.completion"), ("created", .num now),
            ("model", (fields.lookup "model").getD (.str "")),
            ("choices", .arr [.obj [("index", .num 0),
              ("message", .obj [("role", .str "assistant"),
                ("content", claudeText ((fields.lookup "content").getD (.arr [])))]),
              ("finish_reason", (fields.lookup "stop_reason").getD (.str "stop"))]]),
            ("usage", (fields.lookup "usage").getD (.obj []))])) ∧
    (∀ (now : Int) (fields : List (String × Json)),
      candidatesSafe ((fields.lookup "candidates").getD (.arr [])) = true →
      convert_from_gemini_format now (.obj fields)
        = some (.obj [("id", .str ("gemini-" ++ toString now)),
            ("object", .str "chat.completion"), ("created", .num now),
            ("model", .str "gemini-pro"),
            ("choices", .arr [.obj [("index", .num 0),
              ("message", .obj [("role", .str "assistant"),
                ("content", geminiAnswer ((fields.lookup "candidates").getD (.arr [])))]),
              ("finish_reason", .str "stop")]]),
            ("usage", .obj [("prompt_tokens", .num 0), ("completion_tokens", .num 0),
              ("total_tokens", .num 0)])])) := by
  constructor
  · intro now fields hsafe
    rw [convert_from_claude_obj, claudeExtractText_safe _ hsafe, Option.some_bind]
  · intro now fields hsafe
    rw [convert_from_gemini_obj, geminiExtractContent_safe _ hsafe, Option.some_bind]

/-- Witness for C6 (amended): a minimal Claude response (no fields at all)
and a Gemini response with one candidate. -/
theorem translation_total_on_safe_shapes_witness :
    (contentSafe ((([] : List (String × Json)).lookup "content").getD (.arr [])) = true ∧
      convert_from_claude_format 7 (.obj [])
        = some (.obj [("id", .str ""), ("object", .str "chat.completion"),
            ("created", .num 7), ("model", .str ""),
            ("choices", .arr [.obj [("index", .num 0),
              ("message", .obj [("role", .str "assistant"), ("content", .str "")]),
              ("finish_reason", .str "stop")]]),
            ("usage", .obj [])])) ∧
    (candidatesSafe (([("candidates",
        Json.arr [.obj [("content", .obj [("parts", .arr [.obj [("text", .str "hi")]])])]])].lookup
          "candidates").getD (.arr [])) = true ∧
      convert_from_gemini_format 7 (.obj [("candidates",
          .arr [.obj [("content", .obj [("parts", .arr [.obj [("text", .str "hi")]])])]])])
        = some (.obj [("id", .str ("gemini-" ++ toString (7 : Int))),
            ("object", .str "chat.completion"), ("created", .num 7),
            ("model", .str "gemini-pro"),
            ("choices", .arr [.obj [("index", .num 0),
              ("message", .obj [("role", .str "assistant"), ("content", .str "hi")]),
              ("finish_reason", .str "stop")]]),
            ("usage", .obj [("prompt_tokens", .num 0), ("completion_tokens", .num 0),
              ("total_tokens", .num 0)])])) := by
  refine ⟨⟨rfl, ?_⟩, ⟨rfl, ?_⟩⟩
  · exact translation_total_on_safe_shapes.1 7 [] rfl
  · exact translation_total_on_safe_shapes.2 7
      [("candidates", .arr [.obj [("content", .obj [("parts",
        .arr [.obj [("text", .str "hi")]])])]])] rfl

/-- C7 counterexample: a message with role `"system"` — a role other than
`"user"` — is NOT coerced to the alternate role `"model"`: the produced
Gemini entry carries role `"user"`. -/
theorem gemini_system_role_is_user :
    convert_to_gemini_format (.obj [("messages",
        .arr [.obj [("role", .str "system"), ("content", .str "hi")]])])
      = some (.obj [("contents", .arr [.obj [("role", .str "user"),
          ("parts", .arr [.obj [("text", .str "hi")]])]]),
        ("generationConfig", .obj [("maxOutputTokens", .num 1000),
          ("temperature", .num 1), ("topP", .num 1)])]) ∧
    ("user" : String) ≠ "model" := by
  refine ⟨rfl, ?_⟩
  decide

lemma geminiMsgEntry_mapM (rs : List (String × Json)) :
    (rs.map (fun p => Json.obj [("role", .str p.1), ("content", p.2)])).mapM geminiMsgEntry
      = some (rs.map (fun p => Json.obj
          [("role", .str (if p.1 == "user" || p.1 == "system" then "user" else "model")),
           ("parts", .arr [.obj [("text", p.2)]])])) := by
  induction rs with
  | nil => rfl
  | cons p rest ih =>
    rw [List.map_cons, List.map_cons, List.mapM_cons]
    have hentry : geminiMsgEntry (.obj [("role", .str p.1), ("content", p.2)])
        = some (.obj [("role", .str (if p.1 == "user" || p.1 == "system"
            then "user" else "model")), ("parts", .arr [.obj [("text", p.2)]])]) := rfl
    rw [hentry, ih]
    rfl

/-- C7 (amended): the Gemini request translation maps every message, in
order, to a role-tagged content entry whose role is `"user"` when the
original role is `"user"` or `"system"` and the alternate role `"model"`
otherwise; every translated Gemini response reports all usage counters as
zero; and the answer is the first candidate's first content part. -/
theorem gemini_translation_roles_and_usage :
    (∀ rs : List (String × Json),
      convert_to_gemini_format (.obj [("messages",
          .arr (rs.map (fun p => Json.obj [("role", .str p.1), ("content", p.2)])))])
        = some (.obj [("contents", .arr (rs.map (fun p => Json.obj
            [("role", .str (if p.1 == "user" || p.1 == "system" then "user" else "model")),
             ("parts", .arr [.obj [("text", p.2)]])]))),
          ("generationConfig", .obj [("maxOutputTokens", .num 1000),
            ("temperature", .num 1), ("topP", .num 1)])])) ∧
    (∀ (now : Int) (resp out : Json), convert_from_gemini_format now resp = some out →
      jget out "usage" = some (.obj [("prompt_tokens", .num 0),
        ("completion_tokens", .num 0), ("total_tokens", .num 0)])) ∧
    (∀ (now : Int) (t : Json) (restc restp : List Json),
      ∃ out, convert_from_gemini_format now (.obj [("candidates", .arr
          (Json.obj [("content", .obj [("parts",
            .arr (Json.obj [("text", t)] :: restp))])] :: restc))]) = some out ∧
        jget out "choices" = some (.arr [.obj [("index", .num 0),
          ("message", .obj [("role", .str "assistant"), ("content", t)]),
          ("finish_reason", .str "stop")]])) := by
  refine ⟨?_, ?_, ?_⟩
  · intro rs
    have hdec : convert_to_gemini_format (.obj [("messages",
        .arr (rs.map (fun p => Json.obj [("role", .str p.1), ("content", p.2)])))])
        = ((rs.map (fun p => Json.obj [("role", .str p.1),
            ("content", p.2)])).mapM geminiMsgEntry).bind (fun contents =>
          some (.obj [("contents", .arr contents),
            ("generationConfig", .obj [("maxOutputTokens", .num 1000),
              ("temperature", .num 1), ("topP", .num 1)])])) := rfl
    rw [hdec, geminiMsgEntry_mapM, Option.some_bind]
  · intro now resp out h
    unfold convert_from_gemini_format at h
    obtain ⟨cand, _, h2⟩ := Option.bind_eq_some.mp h
    obtain ⟨content, _, h3⟩ := Option.bind_eq_some.mp h2
    obtain rfl : _ = out := Option.some.inj h3
    rfl
  · intro now t restc restp
    exact ⟨_, rfl, rfl⟩

/-- Witness for C7 (amended) at a two-message request and a one-candidate
response. -/
theorem gemini_translation_roles_and_usage_witness :
    convert_to_gemini_format (.obj [("messages",
        .arr ([("system", Json.str "a"), ("assistant", Json.str "b")].map
          (fun p => Json.obj [("role", .str p.1), ("content", p.2)])))])
      = some (.obj [("contents",
          .arr ([("system", Json.str "a"), ("assistant", Json.str "b")].map
            (fun p => Json.obj
              [("role", .str (if p.1 == "user" || p.1 == "system" then "user" else "model")),
               ("parts", .arr [.obj [("text", p.2)]])]))),
          ("generationConfig", .obj [("maxOutputTokens", .num 1000),
            ("temperature", .num 1), ("topP", .num 1)])]) ∧
    (∃ out, convert_from_gemini_format 0 (.obj []) = some out ∧
      jget out "usage" = some (.obj [("prompt_tokens", .num 0),
        ("completion_tokens", .num 0), ("total_tokens", .num 0)])) ∧
    (∃ out, convert_from_gemini_format 0 (.obj [("candidates", .arr
        (Json.obj [("content", .obj [("parts",
          .arr (Json.obj [("text", Json.str "hello")] :: []))])] :: []))]) = some out ∧
      jget out "choices" = some (.arr [.obj [("index", .num 0),
        ("message", .obj [("role", .str "assistant"), ("content", .str "hello")]),
        ("finish_reason", .str "stop")]])) :=
  ⟨gemini_translation_roles_and_usage.1 [("system", .str "a"), ("assistant", .str "b")],
   ⟨_, rfl, gemini_translation_roles_and_usage.2.1 0 (.obj []) _ rfl⟩,
   gemini_translation_roles_and_usage.2.2 0 (.str "hello") [] []⟩
